import Mathlib

/-!
Verification development for the polkadot-prometheus-exporter repository.

The Python sources are shallowly embedded as pure Lean functions:
  * `request_nothrow` / `request`        — `_rpc.py`, `PolkadotRPC`
  * `BlockCache.get`                     — `_blockchain.py`, `BlockCache.get`
  * `PeriodicTask.run`                   — `_utils.py`, `PeriodicTask.run`
  * `_step` (with `walkLoop`/`walkIter`) — `__init__.py`, `Exporter._step`
  * `finality_perform_internal`          — `_tasks.py`, `FinalityInfoUpdater._perform_internal`

Modelling conventions:
  * A block is represented by the two attributes the code inspects: its decoded
    height (`int(number_hex, 16)`, a non-negative integer, modelled as `Nat`)
    and the length of its extrinsics list.
  * The remote node is a read-only oracle mapping each RPC endpoint to an
    outcome; an RPC-level failure of `request` (which raises
    `PolkadotRPCError` in Python) is the `Rpc.failure` / `Err.rpcFailure` case.
  * Exceptions are modelled with explicit outcome types that carry the object
    state, because Python object attributes mutated before a raise survive it.
  * Python's `while` loop in `Exporter._step` is given an explicit fuel
    parameter; `StepOutcome.outOfFuel` marks runs the Python code would
    continue beyond the supplied fuel.
  * Python's stable `sorted(..., reverse=True)` is modelled by a stable
    insertion sort into descending height order.
-/

namespace PolkadotExporter

/-- A block, reduced to the attributes the exporter reads: the decoded header
height and the number of extrinsics. -/
structure Block where
  number : Nat
  extrinsics : Nat
deriving DecidableEq, Repr

/-- Outcome of one `PolkadotRPC.request` call as seen by a caller: either the
raised `PolkadotRPCError` (`failure`) or the extracted payload. -/
inductive Rpc (α : Type) where
  | failure
  | success (result : α)
deriving DecidableEq, Repr

/-- The exceptions that can escape the embedded code: `PolkadotRPCError`
(raised by `request`), `RuntimeError` (raised by `check`/`_check`), and
`TypeError` (raised by subscripting an absent `result` payload). -/
inductive Err where
  | rpcFailure
  | runtimeError (msg : String)
  | typeError
deriving DecidableEq, Repr

/-! ### `_rpc.py`: the RPC client -/

/-- A decoded JSON-RPC response envelope. `hasError` is the truthiness of
`result_json.get('error')`; the rest of the envelope is opaque to the client
(callers extract the `result` field themselves). -/
structure RpcEnvelope where
  hasError : Bool
  body : String
deriving DecidableEq, Repr

/-- The outcome of the underlying HTTP POST performed by `requests.request`:
either a transport-level `RequestException` or a status code with a decoded
envelope. -/
inductive HttpResult where
  | transportError
  | response (status : Nat) (env : RpcEnvelope)
deriving DecidableEq, Repr

/-- The Prometheus counters owned by `PolkadotRPC`. -/
structure RpcCounters where
  rpc_calls : Nat
  network_error : Nat
  unexpected_status : Nat
  error_4xx : Nat
  error_5xx : Nat
  request_error : Nat
deriving DecidableEq, Repr

/-- The opaque failure signal raised by `PolkadotRPC.request`. -/
inductive PolkadotRPCError where
  | mk
deriving DecidableEq, Repr

/-- `PolkadotRPC.request_nothrow`: classify the HTTP outcome, tally exactly
one counter per failure kind, and return the full envelope on success. -/
def request_nothrow (c : RpcCounters) (r : HttpResult) :
    RpcCounters × Option RpcEnvelope :=
  let c1 := { c with rpc_calls := c.rpc_calls + 1 }
  match r with
  | .transportError =>
      ({ c1 with network_error := c1.network_error + 1 }, none)
  | .response status env =>
      if status ≠ 200 then
        if 400 ≤ status ∧ status < 500 then
          ({ c1 with error_4xx := c1.error_4xx + 1 }, none)
        else if 500 ≤ status ∧ status < 600 then
          ({ c1 with error_5xx := c1.error_5xx + 1 }, none)
        else
          ({ c1 with unexpected_status := c1.unexpected_status + 1 }, none)
      else if env.hasError then
        ({ c1 with request_error := c1.request_error + 1 }, none)
      else
        (c1, some env)

/-- `PolkadotRPC.request`: raise `PolkadotRPCError` exactly when
`request_nothrow` returned `None`, else return the full envelope. -/
def request (c : RpcCounters) (r : HttpResult) :
    RpcCounters × Except PolkadotRPCError RpcEnvelope :=
  match request_nothrow c r with
  | (c2, none) => (c2, .error .mk)
  | (c2, some env) => (c2, .ok env)

/-- `_rpc.get_block_num`: decode the height of a block payload
(`int(rpc_block['block']['header']['number'], 16)`). -/
def get_block_num (b : Block) : Nat := b.number

/-! ### `_blockchain.py`: the block cache -/

/-- Python's `str.lower()`, applied characterwise. -/
def str_lower (s : String) : String := String.mk (s.data.map Char.toLower)

/-- One step of the stable descending-height insertion modelling Python's
stable `sorted(items, key=get_block_num, reverse=True)`: an element is placed
after every earlier element of strictly greater or equal height. -/
def insertByNumDesc (a : String × Block) :
    List (String × Block) → List (String × Block)
  | [] => [a]
  | b :: l =>
      if a.2.number < b.2.number then b :: insertByNumDesc a l
      else a :: b :: l

/-- Stable sort of the cache items into descending height order (ties keep
insertion order), as produced by `sorted(..., reverse=True)`. -/
def sortByNumDesc (l : List (String × Block)) : List (String × Block) :=
  l.foldr insertByNumDesc []

/-- `BlockCache`: configured capacity (`size`, default 256) plus the dict of
cached blocks keyed by lowercased hash, in insertion order. -/
structure BlockCache where
  size : Nat
  cache : List (String × Block)
deriving DecidableEq, Repr

/-- The entries retained by the eviction in `BlockCache.get`:
`dict(sorted(items, key=get_block_num, reverse=True)[:size])`. -/
def BlockCache.evicted (size : Nat) (cache : List (String × Block)) :
    List (String × Block) :=
  (sortByNumDesc cache).take size

/-- `BlockCache.get`: lowercase the hash; on a hit return the cached block
with zero RPC calls; on a miss fetch `chain_getBlock` (propagating an RPC
failure), never cache an absent result, and before inserting evict down to
the `size` highest blocks whenever the dict has reached `2 * size` entries.
The returned `Nat` counts the RPC calls made. -/
def BlockCache.get (fetch : String → Rpc (Option Block)) (c : BlockCache)
    (block_hash : String) : BlockCache × Except Err (Option Block) × Nat :=
  let h := str_lower block_hash
  match List.lookup h c.cache with
  | some b => (c, .ok (some b), 0)
  | none =>
      match fetch h with
      | .failure => (c, .error .rpcFailure, 1)
      | .success none => (c, .ok none, 1)
      | .success (some b) =>
          let entries :=
            if c.size * 2 ≤ c.cache.length then
              BlockCache.evicted c.size c.cache
            else c.cache
          ({ c with cache := entries ++ [(h, b)] }, .ok (some b), 1)

/-! ### `_utils.py`: periodic tasks and `check` -/

/-- `PeriodicTask`: the configured interval and the timestamp of the last
invocation (`None` before the first run). Timestamps are modelled as
integers; only ordering and addition of times matter here. -/
structure PeriodicTask where
  period_seconds : Int
  last_invocation_time : Option Int
deriving DecidableEq, Repr

/-- `PeriodicTask.run` at wall-clock time `now`, where `body` is what
`self._perform()` would do. Returns the task object as left behind (the
timestamp is recorded before the body runs, so it is recorded even when the
body raises) and `none` when the task was skipped, `some r` when the body ran
with outcome `r`. -/
def PeriodicTask.run (t : PeriodicTask) (now : Int)
    (body : Except Err Unit) : PeriodicTask × Option (Except Err Unit) :=
  match t.last_invocation_time with
  | some last =>
      if now < last + t.period_seconds then (t, none)
      else ({ t with last_invocation_time := some now }, some body)
  | none => ({ t with last_invocation_time := some now }, some body)

/-- `_utils.check` (and `__init__._check`): raise `RuntimeError` when the
condition is false. -/
def check (condition : Bool) (error_msg : String) : Except Err Unit :=
  if condition then .ok () else .error (.runtimeError error_msg)

/-! ### `__init__.py`: the catch-up engine `Exporter._step`

The remote node is modelled as a read-only oracle giving, for each RPC
endpoint used by `_step`, the outcome of one `request` call during this
`_step` invocation: `chain_getBlockHash` with no argument (`headHash`),
`chain_getBlock` with no argument (`headBlock`), `chain_getBlockHash [n]`
(`hashAt`), and `chain_getBlock [hash]` (`blockAt`). The `Option` inside is
the `result` field of the returned envelope (`none` = JSON `null`). -/
structure Node where
  headHash : Rpc (Option String)
  headBlock : Rpc (Option Block)
  hashAt : Nat → Rpc (Option String)
  blockAt : String → Rpc (Option Block)

/-- The `Exporter` attributes `_step` reads and writes, plus ghost
observations: `events` records the height of each block-observed event (each
`_counter_blocks_seen.inc()` paired with the processed block), and
`rpcCalls` counts the `request` calls issued by `_step` itself. -/
structure StepState where
  lastNum : Option Nat
  lastHash : Option String
  blocksSeen : Nat
  extrinsicsSeen : Nat
  highestBlock : Option Nat
  events : List Nat
  rpcCalls : Nat
deriving DecidableEq, Repr

/-- Outcome of a `_step` invocation. An escaping exception (`err`) still
carries the final object state, since attribute mutations made before the
raise survive it. `outOfFuel` marks runs the Python loop would continue
beyond the fuel given to the embedding. -/
inductive StepOutcome where
  | ok (s : StepState)
  | err (e : Err) (s : StepState)
  | outOfFuel (s : StepState)
deriving DecidableEq, Repr

/-- Account one `request` call made by `_step`. -/
def bumpRpc (s : StepState) : StepState :=
  { s with rpcCalls := s.rpcCalls + 1 }

/-- `__init__._get_block_num` applied to a full response envelope:
`int(rpc_block['result']['block']['header']['number'], 16)`. When the
`result` field is `null`, subscripting it raises `TypeError`. -/
def _get_block_num (env : Option Block) : Except Err Nat :=
  match env with
  | none => .error .typeError
  | some b => .ok (get_block_num b)

/-- Lines 235–238 of `__init__.py`: increment the blocks counter, set
`_last_processed_block_num` from the block (raising `TypeError` when the
envelope's `result` is absent), and add the block's extrinsic count.
(The trailing `self._run_updaters()` drives the separately modelled periodic
tasks and is outside this state.) -/
def processBlock (env : Option Block) (s : StepState) : StepOutcome :=
  let s1 := { s with blocksSeen := s.blocksSeen + 1 }
  match env with
  | none => .err .typeError s1
  | some b =>
      .ok { s1 with
              lastNum := some (get_block_num b),
              extrinsicsSeen := s1.extrinsicsSeen + b.extrinsics,
              events := s1.events ++ [get_block_num b] }

/-- One iteration of the `while` body in `_step` (lines 222–240), with
`latest` the envelope of the pre-fetched head block. In the per-height
branch, `_last_processed_block_hash` is assigned the resolved hash *before*
the `chain_getBlock` fetch for it is attempted. The
`_check(block is not None)` on line 233 tests the response envelope, which
`request` never returns as `None`, so it cannot fire. -/
def walkIter (node : Node) (latest : Option Block) (s : StepState) :
    StepOutcome :=
  match s.lastNum with
  | none => processBlock latest s
  | some lastNum =>
      match node.hashAt (lastNum + 1) with
      | .failure => .err .rpcFailure (bumpRpc s)
      | .success none =>
          .err (.runtimeError "hash of the next block must not be none")
            (bumpRpc s)
      | .success (some h) =>
          let s1 := { bumpRpc s with lastHash := some h }
          match node.blockAt h with
          | .failure => .err .rpcFailure (bumpRpc s1)
          | .success env => processBlock env (bumpRpc s1)

/-- The `while` condition of `_step`:
`self._last_processed_block_num is None or ... < latest_block_num`. -/
def loopCond (s : StepState) (latestNum : Nat) : Bool :=
  match s.lastNum with
  | none => true
  | some lastNum => decide (lastNum < latestNum)

/-- The `while` loop of `_step`, driven by explicit fuel. -/
def walkLoop (node : Node) (latest : Option Block) (latestNum : Nat) :
    Nat → StepState → StepOutcome
  | 0, s => if loopCond s latestNum then .outOfFuel s else .ok s
  | fuel + 1, s =>
      if loopCond s latestNum then
        match walkIter node latest s with
        | .ok s1 => walkLoop node latest latestNum fuel s1
        | out => out
      else .ok s

/-- `_step` after the fast path: fetch the head block via `chain_getBlock`,
publish its height on the `polkadot_highest_block` gauge, and run the walk
loop. -/
def _step_walk (node : Node) (fuel : Nat) (s : StepState) : StepOutcome :=
  match node.headBlock with
  | .failure => .err .rpcFailure (bumpRpc s)
  | .success env =>
      match _get_block_num env with
      | .error e => .err e (bumpRpc s)
      | .ok latestNum =>
          walkLoop node env latestNum fuel
            { bumpRpc s with highestBlock := some latestNum }

/-- `Exporter._step` (lines 209–240), without the leading
`self._run_updaters()` (the periodic tasks are modelled separately). The
fast path short-circuits: the `chain_getBlockHash` call is only made when
`_last_processed_block_hash` is not `None`, and when its result equals that
hash the method returns at once. -/
def _step (node : Node) (fuel : Nat) (s : StepState) : StepOutcome :=
  match s.lastHash with
  | none => _step_walk node fuel s
  | some h =>
      match node.headHash with
      | .failure => .err .rpcFailure (bumpRpc s)
      | .success r =>
          if r = some h then .ok (bumpRpc s)
          else _step_walk node fuel (bumpRpc s)

/-- The `try/except _PolkadotRPCError: pass` around `self._step()` in
`Exporter.serve_forever` (lines 200–203): only the RPC failure signal is
caught; any other exception escapes the main loop and ends the process. -/
def serve_forever_boundary (r : StepOutcome) : StepOutcome :=
  match r with
  | .err .rpcFailure s => .ok s
  | out => out

/-! ### `_tasks.py`: the finality tracker -/

/-- The two direct RPC results consumed by
`FinalityInfoUpdater._perform_internal`. -/
structure FinalityNode where
  finalizedHead : Rpc (Option String)
  headHash : Rpc (Option String)

/-- The metric state owned by `FinalityInfoUpdater`: the last values set on
the two gauges (`none` = never set) and the list of histogram observations. -/
structure FinalityState where
  final_block : Option Int
  finality_delay_blocks : Option Int
  delay_observations : List Int
deriving DecidableEq, Repr

/-- Outcome of one run of the finality task body: final cache and metric
state, with any escaping exception. -/
inductive FinalityOutcome where
  | ok (c : BlockCache) (st : FinalityState)
  | err (e : Err) (c : BlockCache) (st : FinalityState)
deriving DecidableEq, Repr

/-- `FinalityInfoUpdater._perform_internal` (lines 104–121): fetch the
finalized-head and head hashes, skip the cycle when the finalized head is
absent, resolve both hashes through the shared `BlockCache` with `check`s
that the blocks exist, and publish the finalized height and the finality
delay (gauge plus histogram observation). -/
def finality_perform_internal (node : FinalityNode)
    (fetch : String → Rpc (Option Block)) (c : BlockCache)
    (st : FinalityState) : FinalityOutcome :=
  match node.finalizedHead with
  | .failure => .err .rpcFailure c st
  | .success finalHash =>
  match node.headHash with
  | .failure => .err .rpcFailure c st
  | .success latestHash =>
  match finalHash with
  | none => .ok c st
  | some fh =>
  match BlockCache.get fetch c fh with
  | (c1, .error e, _) => .err e c1 st
  | (c1, .ok none, _) =>
      .err (.runtimeError "finalized block must not be none") c1 st
  | (c1, .ok (some fb), _) =>
  let st1 := { st with final_block := some (get_block_num fb : Int) }
  match latestHash with
  | none =>
      .err (.runtimeError "head block is absent but finalized block is not")
        c1 st1
  | some lh =>
  match BlockCache.get fetch c1 lh with
  | (c2, .error e, _) => .err e c2 st1
  | (c2, .ok none, _) =>
      .err (.runtimeError "head block must not be none") c2 st1
  | (c2, .ok (some lb), _) =>
      let d : Int := (get_block_num lb : Int) - (get_block_num fb : Int)
      .ok c2 { st1 with
                 finality_delay_blocks := some d,
                 delay_observations := st1.delay_observations ++ [d] }

/-- `ExporterPeriodicTask._perform` (`_tasks.py` lines 27–31): run the task
body and swallow only `PolkadotRPCError`; every other exception escapes the
task boundary. -/
def exporter_periodic_task_boundary (r : FinalityOutcome) : FinalityOutcome :=
  match r with
  | .err .rpcFailure c st => .ok c st
  | out => out

/-! ### Consistency of a node's answers

Hypothesis shape for the catch-up claims: over the heights up to the head
height `H`, the node's per-height hash answers and per-hash block answers
agree with a common chain description (`hashOf`, `blockOf`). -/

/-- The node's answers are self-consistent for heights up to `H`: the head
block is `blockOf H`, each block of height `n ≤ H` decodes to height `n`, and
the hash/block endpoints succeed and agree with `hashOf`/`blockOf`. -/
structure ConsistentTo (node : Node) (H : Nat) (hashOf : Nat → String)
    (blockOf : Nat → Block) : Prop where
  head_block : node.headBlock = .success (some (blockOf H))
  number_eq : ∀ n, n ≤ H → (blockOf n).number = n
  hash_at : ∀ n, n ≤ H → node.hashAt n = .success (some (hashOf n))
  block_at : ∀ n, n ≤ H → node.blockAt (hashOf n) = .success (some (blockOf n))

/-! ### Concrete inputs used by witnesses and counterexamples -/

/-- A remote serving five distinct lowercase-hashed blocks of heights
10–14. -/
def fetchW : String → Rpc (Option Block) := fun h =>
  if h = "b1" then .success (some ⟨10, 0⟩)
  else if h = "b2" then .success (some ⟨11, 0⟩)
  else if h = "b3" then .success (some ⟨12, 0⟩)
  else if h = "b4" then .success (some ⟨13, 0⟩)
  else if h = "b5" then .success (some ⟨14, 0⟩)
  else .success none

/-- Capacity-2 cache states reached by fetching `b1`, `b2`, `b3`, `b4` in
order through `BlockCache.get`, starting from the empty cache. -/
def cacheW1 : BlockCache := (BlockCache.get fetchW ⟨2, []⟩ "b1").1

/-- The cache after the second insert. -/
def cacheW2 : BlockCache := (BlockCache.get fetchW cacheW1 "b2").1

/-- The cache after the third insert. -/
def cacheW3 : BlockCache := (BlockCache.get fetchW cacheW2 "b3").1

/-- The cache after the fourth insert: four entries, i.e. `2 × C`. -/
def cacheW4 : BlockCache := (BlockCache.get fetchW cacheW3 "b4").1

/-- Chain description for the catch-up witnesses: block `n` has height `n`
and `n + 10` extrinsics. -/
def blockOfW : Nat → Block := fun n => ⟨n, n + 10⟩

/-- Hashes of the witness chain, distinct for heights 0–2. -/
def hashOfW : Nat → String := fun n =>
  if n = 0 then "g0" else if n = 1 then "g1" else if n = 2 then "g2" else "gx"

/-- Height looked up from a witness-chain hash. -/
def idxW : String → Nat := fun h =>
  if h = "g0" then 0 else if h = "g1" then 1 else if h = "g2" then 2 else 3

/-- A node consistently serving the witness chain with head height 2. -/
def nodeW : Node :=
  ⟨.success (some "g2"), .success (some (blockOfW 2)),
   fun n => .success (some (hashOfW n)),
   fun h => .success (some (blockOfW (idxW h)))⟩

/-- Violation node A: the head block reports height 2, but the hash of
height 1 comes back absent even though the node asserted the height
exists. -/
def nodeA6 : Node :=
  ⟨.success (some "hh"), .success (some ⟨2, 0⟩),
   fun _ => .success none, fun _ => .failure⟩

/-- Violation node B: the hash of height 1 resolves, but fetching that hash
returns an envelope with an absent `result`. -/
def nodeB6 : Node :=
  ⟨.success (some "hh"), .success (some ⟨2, 0⟩),
   fun _ => .success (some "h1"), fun _ => .success none⟩

/-- Start state for the violation scenarios: block 0 processed. -/
def s06 : StepState := ⟨some 0, none, 0, 0, none, [], 0⟩

/-! ## Theorems -/

/-- Descending-height order between cache items. -/
def heightGE (a b : String × Block) : Prop := b.2.number ≤ a.2.number

lemma mem_insertByNumDesc {a x : String × Block} {l : List (String × Block)} :
    x ∈ insertByNumDesc a l ↔ x = a ∨ x ∈ l := by
  induction l with
  | nil => simp [insertByNumDesc]
  | cons b t ih =>
      simp only [insertByNumDesc]
      split
      · simp only [List.mem_cons, ih]
        tauto
      · simp only [List.mem_cons]

lemma insertByNumDesc_perm (a : String × Block) (l : List (String × Block)) :
    (insertByNumDesc a l).Perm (a :: l) := by
  induction l with
  | nil => simp [insertByNumDesc]
  | cons b t ih =>
      simp only [insertByNumDesc]
      split
      · exact (ih.cons b).trans (List.Perm.swap a b t)
      · exact List.Perm.refl _

lemma sortByNumDesc_perm (l : List (String × Block)) :
    (sortByNumDesc l).Perm l := by
  induction l with
  | nil => exact List.Perm.refl _
  | cons a t ih =>
      exact (insertByNumDesc_perm a (sortByNumDesc t)).trans (ih.cons a)

lemma pairwise_insertByNumDesc {a : String × Block} {l : List (String × Block)}
    (h : l.Pairwise heightGE) : (insertByNumDesc a l).Pairwise heightGE := by
  induction l with
  | nil => simp [insertByNumDesc]
  | cons b t ih =>
      rcases List.pairwise_cons.1 h with ⟨hb, ht⟩
      simp only [insertByNumDesc]
      split
      · rename_i hab
        refine List.pairwise_cons.2 ⟨?_, ih ht⟩
        intro x hx
        rcases mem_insertByNumDesc.1 hx with rfl | hx
        · exact Nat.le_of_lt hab
        · exact hb x hx
      · rename_i hab
        refine List.pairwise_cons.2 ⟨?_, h⟩
        intro x hx
        rcases List.mem_cons.1 hx with rfl | hx
        · exact Nat.le_of_not_lt hab
        · exact Nat.le_trans (hb x hx) (Nat.le_of_not_lt hab)

lemma sortByNumDesc_pairwise (l : List (String × Block)) :
    (sortByNumDesc l).Pairwise heightGE := by
  induction l with
  | nil => simp [sortByNumDesc]
  | cons a t ih => exact pairwise_insertByNumDesc ih

lemma sortByNumDesc_length (l : List (String × Block)) :
    (sortByNumDesc l).length = l.length :=
  (sortByNumDesc_perm l).length_eq

/-- C3 (counterexample): with capacity `C = 2`, the four cache misses
`b1, b2, b3, b4` from the empty cache end with 4 = `2×C` resident entries
immediately after the fourth insert, exceeding the claimed `2×C − 1` bound. -/
theorem c3_cache_bound_counterexample :
    cacheW4.size = 2
    ∧ cacheW4 = (BlockCache.get fetchW cacheW3 "b4").1
    ∧ cacheW4.cache.length = 4
    ∧ 2 * cacheW4.size - 1 < cacheW4.cache.length := by
  refine ⟨rfl, rfl, rfl, ?_⟩
  decide

/-- C3 (amended): after any insert performed by `BlockCache.get` the cache
holds at most `2×C` entries (`C ≥ 1` the configured capacity), and whenever
the eviction fires (current size at least `2×C`), the entries retained by it
are exactly `C` of the cached entries, every one of height at least the
height of every entry dropped. -/
theorem c3_cache_bound (fetch : String → Rpc (Option Block)) (c : BlockCache)
    (h0 : String) (b : Block) (hcap : 1 ≤ c.size)
    (hmiss : List.lookup (str_lower h0) c.cache = none)
    (hfetch : fetch (str_lower h0) = .success (some b)) :
    (BlockCache.get fetch c h0).1.cache.length ≤ 2 * c.size
    ∧ (c.size * 2 ≤ c.cache.length →
        ∃ dropped,
          sortByNumDesc c.cache = BlockCache.evicted c.size c.cache ++ dropped
          ∧ (BlockCache.evicted c.size c.cache).length = c.size
          ∧ (BlockCache.evicted c.size c.cache ++ dropped).Perm c.cache
          ∧ ∀ p ∈ BlockCache.evicted c.size c.cache, ∀ q ∈ dropped,
              q.2.number ≤ p.2.number) := by
  have hlen : ∀ hfire : c.size * 2 ≤ c.cache.length,
      (BlockCache.evicted c.size c.cache).length = c.size := by
    intro hfire
    have hsz : c.size ≤ (sortByNumDesc c.cache).length := by
      rw [sortByNumDesc_length]
      omega
    simpa [BlockCache.evicted, List.length_take] using Nat.min_eq_left hsz
  constructor
  · simp only [BlockCache.get, hmiss, hfetch]
    by_cases hfire : c.size * 2 ≤ c.cache.length
    · simp only [if_pos hfire, List.length_append, List.length_cons,
        List.length_nil, hlen hfire]
      omega
    · simp only [if_neg hfire, List.length_append, List.length_cons,
        List.length_nil]
      omega
  · intro hfire
    refine ⟨(sortByNumDesc c.cache).drop c.size, ?_, hlen hfire, ?_, ?_⟩
    · exact (List.take_append_drop c.size (sortByNumDesc c.cache)).symm
    · rw [BlockCache.evicted, List.take_append_drop]
      exact sortByNumDesc_perm c.cache
    · intro p hp q hq
      have hpw : ((sortByNumDesc c.cache).take c.size
          ++ (sortByNumDesc c.cache).drop c.size).Pairwise heightGE := by
        rw [List.take_append_drop]
        exact sortByNumDesc_pairwise c.cache
      exact (List.pairwise_append.1 hpw).2.2 p hp q hq

/-- C3 (witness for the amended theorem): capacity 2, four resident entries,
inserting `b5` fires the eviction; the retained entries are the two highest
(heights 13 and 12). -/
theorem c3_cache_bound_witness :
    1 ≤ cacheW4.size
    ∧ List.lookup (str_lower "b5") cacheW4.cache = none
    ∧ fetchW (str_lower "b5") = .success (some ⟨14, 0⟩)
    ∧ (BlockCache.get fetchW cacheW4 "b5").1.cache.length ≤ 2 * cacheW4.size :=
  ⟨by decide, by decide, by decide,
    (c3_cache_bound fetchW cacheW4 "b5" ⟨14, 0⟩ (by decide) (by decide)
      (by decide)).1⟩

/-- C4: a `BlockCache.get` whose lowercased identifier is resident returns
the cached block with zero RPC calls and an unchanged cache, and a miss
whose remote `result` is absent returns `None`, makes one RPC call, and
inserts nothing. -/
theorem c4_cache_hit_and_absent (fetch : String → Rpc (Option Block))
    (c : BlockCache) (h0 : String) :
    (∀ b, List.lookup (str_lower h0) c.cache = some b →
        BlockCache.get fetch c h0 = (c, .ok (some b), 0))
    ∧ (List.lookup (str_lower h0) c.cache = none →
        fetch (str_lower h0) = .success none →
        BlockCache.get fetch c h0 = (c, .ok none, 1)) := by
  constructor
  · intro b hhit
    simp [BlockCache.get, hhit]
  · intro hmiss habsent
    simp [BlockCache.get, hmiss, habsent]

/-- C4 (witness): the uppercase identifier `"B1"` hits the entry cached
under `"b1"` with zero RPC calls, and the unknown identifier `"zz"` (absent
remotely) returns `None` leaving the cache unchanged. -/
theorem c4_cache_hit_and_absent_witness :
    List.lookup (str_lower "B1") cacheW1.cache = some ⟨10, 0⟩
    ∧ BlockCache.get fetchW cacheW1 "B1" = (cacheW1, .ok (some ⟨10, 0⟩), 0)
    ∧ List.lookup (str_lower "zz") cacheW1.cache = none
    ∧ fetchW (str_lower "zz") = .success none
    ∧ BlockCache.get fetchW cacheW1 "zz" = (cacheW1, .ok none, 1) :=
  ⟨by decide,
    (c4_cache_hit_and_absent fetchW cacheW1 "B1").1 ⟨10, 0⟩ (by decide),
    by decide, by decide,
    (c4_cache_hit_and_absent fetchW cacheW1 "zz").2 (by decide) (by decide)⟩

/-- C7: `request` raises the opaque `PolkadotRPCError` exactly when
`request_nothrow` returns `None`; otherwise it returns the full envelope
that `request_nothrow` produced. `request_nothrow` fails exactly on a
transport error, a non-200 HTTP status (tallied as 4xx, 5xx or other), or an
HTTP-200 envelope with a truthy error field. -/
theorem c7_request_failure_classification (c : RpcCounters) (r : HttpResult) :
    ((request c r).2 = .error .mk ↔ (request_nothrow c r).2 = none)
    ∧ (∀ env, (request_nothrow c r).2 = some env → (request c r).2 = .ok env)
    ∧ ((request_nothrow c r).2 = none ↔
        r = .transportError
        ∨ (∃ st env, r = .response st env ∧ st ≠ 200)
        ∨ (∃ env, r = .response 200 env ∧ env.hasError = true))
    ∧ (request_nothrow c .transportError).1.network_error = c.network_error + 1
    ∧ (∀ st env, 400 ≤ st → st < 500 →
        (request_nothrow c (.response st env)).1.error_4xx = c.error_4xx + 1)
    ∧ (∀ st env, 500 ≤ st → st < 600 →
        (request_nothrow c (.response st env)).1.error_5xx = c.error_5xx + 1)
    ∧ (∀ st env, st ≠ 200 → ¬(400 ≤ st ∧ st < 500) → ¬(500 ≤ st ∧ st < 600) →
        (request_nothrow c (.response st env)).1.unexpected_status
          = c.unexpected_status + 1)
    ∧ (∀ env, env.hasError = true →
        (request_nothrow c (.response 200 env)).1.request_error
          = c.request_error + 1)
    ∧ (request_nothrow c r).1.rpc_calls = c.rpc_calls + 1 := by
  refine ⟨?_, ?_, ?_, rfl, ?_, ?_, ?_, ?_, ?_⟩
  · unfold request
    rcases hnt : request_nothrow c r with ⟨c2, e⟩
    cases e <;> simp
  · intro env hnt
    unfold request
    rcases hnt2 : request_nothrow c r with ⟨c2, e⟩
    rw [hnt2] at hnt
    cases e <;> simp_all
  · cases r with
    | transportError => simp [request_nothrow]
    | response st env =>
        by_cases hst : st = 200
        · subst hst
          by_cases herr : env.hasError
          · simp [request_nothrow, herr]
          · simp [request_nothrow, herr]
        · simp only [request_nothrow, if_pos hst]
          constructor
          · intro _
            exact Or.inr (Or.inl ⟨st, env, rfl, hst⟩)
          · intro _
            split
            · rfl
            · split
              · rfl
              · rfl
  · intro st env h4 h5
    have hst : st ≠ 200 := by omega
    simp [request_nothrow, hst, h4, h5]
  · intro st env h5 h6
    have hst : st ≠ 200 := by omega
    have h4 : ¬(400 ≤ st ∧ st < 500) := by omega
    simp [request_nothrow, hst, h4, h5, h6]
  · intro st env hst h4 h5
    simp [request_nothrow, hst, h4, h5]
  · intro env herr
    simp [request_nothrow, herr]
  · cases r with
    | transportError => rfl
    | response st env =>
        by_cases hst : st = 200
        · subst hst
          by_cases herr : env.hasError <;> simp [request_nothrow, herr]
        · by_cases h4 : 400 ≤ st ∧ st < 500
          · simp [request_nothrow, hst, h4]
          · by_cases h5 : 500 ≤ st ∧ st < 600 <;>
              simp [request_nothrow, hst, h4, h5]

/-- C7 (witness): a 200 response without an error field succeeds through
`request`, and a 404 response is tallied as a 4xx failure. -/
theorem c7_request_failure_classification_witness :
    (request_nothrow ⟨0, 0, 0, 0, 0, 0⟩ (.response 200 ⟨false, "ok"⟩)).2
        = some ⟨false, "ok"⟩
    ∧ (request ⟨0, 0, 0, 0, 0, 0⟩ (.response 200 ⟨false, "ok"⟩)).2
        = .ok ⟨false, "ok"⟩
    ∧ (request_nothrow ⟨0, 0, 0, 0, 0, 0⟩
        (.response 404 ⟨false, "nf"⟩)).1.error_4xx = 0 + 1 :=
  ⟨by decide,
    (c7_request_failure_classification ⟨0, 0, 0, 0, 0, 0⟩
      (.response 200 ⟨false, "ok"⟩)).2.1 ⟨false, "ok"⟩ (by decide),
    (c7_request_failure_classification ⟨0, 0, 0, 0, 0, 0⟩
      (.response 404 ⟨false, "nf"⟩)).2.2.2.2.1 404 ⟨false, "nf"⟩
      (by decide) (by decide)⟩

/-- C8: `PeriodicTask.run` is a no-op when a last invocation timestamp `t`
exists and `now < t + period`; when the task does execute, the recorded
timestamp is `now` irrespective of the body's outcome, so any further `run`
before `now + period` is a no-op even after a failed body. -/
theorem c8_periodic_task_throttle (t : PeriodicTask) (now : Int)
    (body : Except Err Unit) :
    (∀ last, t.last_invocation_time = some last →
        now < last + t.period_seconds → t.run now body = (t, none))
    ∧ (∀ t1 r, t.run now body = (t1, some r) →
        r = body
        ∧ t1.last_invocation_time = some now
        ∧ t1.period_seconds = t.period_seconds
        ∧ ∀ now' body2, now' < now + t1.period_seconds →
            t1.run now' body2 = (t1, none)) := by
  constructor
  · intro last hlast hlt
    simp [PeriodicTask.run, hlast, hlt]
  · intro t1 r hrun
    have hmain : r = body ∧ t1.last_invocation_time = some now
        ∧ t1.period_seconds = t.period_seconds := by
      rcases hlast : t.last_invocation_time with _ | last
      · simp only [PeriodicTask.run, hlast, Prod.mk.injEq,
          Option.some.injEq] at hrun
        exact ⟨hrun.2.symm, by rw [← hrun.1], by rw [← hrun.1]⟩
      · simp only [PeriodicTask.run, hlast] at hrun
        by_cases hlt : now < last + t.period_seconds
        · simp only [if_pos hlt, Prod.mk.injEq] at hrun
          exact absurd hrun.2 (by simp)
        · simp only [if_neg hlt, Prod.mk.injEq, Option.some.injEq] at hrun
          exact ⟨hrun.2.symm, by rw [← hrun.1], by rw [← hrun.1]⟩
    refine ⟨hmain.1, hmain.2.1, hmain.2.2, ?_⟩
    intro now' body2 hlt
    simp [PeriodicTask.run, hmain.2.1, hlt]

/-- C8 (witness): a task with period 5 last run at time 9 skips a tick at
time 10; running a task with no recorded invocation at time 20 with a
failing body records timestamp 20 and skips a retry at time 24. -/
theorem c8_periodic_task_throttle_witness :
    (PeriodicTask.mk 5 (some 9)).last_invocation_time = some 9
    ∧ (10 : Int) < 9 + (PeriodicTask.mk 5 (some 9)).period_seconds
    ∧ PeriodicTask.run ⟨5, some 9⟩ 10 (.ok ()) = (⟨5, some 9⟩, none)
    ∧ PeriodicTask.run ⟨5, none⟩ 20 (.error .rpcFailure)
        = (⟨5, some 20⟩, some (.error .rpcFailure))
    ∧ PeriodicTask.run ⟨5, some 20⟩ 24 (.ok ()) = (⟨5, some 20⟩, none) :=
  ⟨rfl, by decide,
    (c8_periodic_task_throttle ⟨5, some 9⟩ 10 (.ok ())).1 9 rfl (by decide),
    rfl,
    ((c8_periodic_task_throttle ⟨5, none⟩ 20 (.error .rpcFailure)).2
        ⟨5, some 20⟩ (.error .rpcFailure) rfl).2.2.2 24 (.ok ()) (by decide)⟩

lemma walkLoop_exit (node : Node) (latest : Option Block) (H : Nat)
    (fuel : Nat) (s : StepState) (h : loopCond s H = false) :
    walkLoop node latest H fuel s = .ok s := by
  cases fuel <;> simp [walkLoop, h]

lemma walkLoop_run {node : Node} {H : Nat} {hashOf : Nat → String}
    {blockOf : Nat → Block} (hc : ConsistentTo node H hashOf blockOf) :
    ∀ fuel L s, s.lastNum = some L → L ≤ H → H - L ≤ fuel →
      walkLoop node (some (blockOf H)) H fuel s =
        .ok { s with
                lastNum := some H,
                lastHash := if L < H then some (hashOf H) else s.lastHash,
                blocksSeen := s.blocksSeen + (H - L),
                extrinsicsSeen := s.extrinsicsSeen +
                  ((List.range' (L+1) (H-L)).map
                    fun n => (blockOf n).extrinsics).sum,
                events := s.events ++ List.range' (L+1) (H-L),
                rpcCalls := s.rpcCalls + 2 * (H - L) } := by
  intro fuel
  induction fuel with
  | zero =>
      intro L s hL hLE hfuel
      obtain ⟨ln, lh, bs, es, hb, ev, rc⟩ := s
      simp only at hL
      subst hL
      have hLH : L = H := by omega
      subst hLH
      simp [walkLoop, loopCond]
  | succ fuel ih =>
      intro L s hL hLE hfuel
      obtain ⟨ln, lh, bs, es, hb, ev, rc⟩ := s
      simp only at hL
      subst hL
      by_cases hLH : L < H
      · have hcond : loopCond ⟨some L, lh, bs, es, hb, ev, rc⟩ H = true := by
          simp [loopCond, hLH]
        have hiter :
            walkIter node (some (blockOf H)) ⟨some L, lh, bs, es, hb, ev, rc⟩
              = .ok ⟨some (L+1), some (hashOf (L+1)), bs + 1,
                  es + (blockOf (L+1)).extrinsics, hb, ev ++ [L+1],
                  rc + 1 + 1⟩ := by
          simp only [walkIter, hc.hash_at (L+1) (by omega),
            hc.block_at (L+1) (by omega), bumpRpc, processBlock,
            get_block_num, hc.number_eq (L+1) (by omega)]
        have hrec : walkLoop node (some (blockOf H)) H fuel
            ⟨some (L+1), some (hashOf (L+1)), bs + 1,
              es + (blockOf (L+1)).extrinsics, hb, ev ++ [L+1], rc + 1 + 1⟩
            = .ok ⟨some H,
                if L + 1 < H then some (hashOf H) else some (hashOf (L+1)),
                bs + 1 + (H - (L+1)),
                es + (blockOf (L+1)).extrinsics +
                  ((List.range' (L+1+1) (H-(L+1))).map
                    fun n => (blockOf n).extrinsics).sum,
                hb, ev ++ [L+1] ++ List.range' (L+1+1) (H-(L+1)),
                rc + 1 + 1 + 2 * (H - (L+1))⟩ :=
          ih (L+1) _ rfl (by omega) (by omega)
        have hrange : List.range' (L+1) (H-L)
            = (L+1) :: List.range' (L+1+1) (H-(L+1)) := by
          have h1 : H - L = (H - (L+1)) + 1 := by omega
          rw [h1, List.range'_succ]
        have h2 : bs + 1 + (H - (L+1)) = bs + (H - L) := by omega
        have h3 : rc + 1 + 1 + 2 * (H - (L+1)) = rc + 2 * (H - L) := by omega
        have hhash : (if L + 1 < H then some (hashOf H)
            else some (hashOf (L+1))) = some (hashOf H) := by
          rcases Nat.lt_or_ge (L+1) H with h | h
          · rw [if_pos h]
          · have hE : L + 1 = H := by omega
            rw [if_neg (by omega), hE]
        simp only [walkLoop, hcond, if_true, hiter, hrec, hrange]
        simp [hhash, h2, h3, if_pos hLH, List.append_assoc, Nat.add_assoc]
      · have hLH2 : L = H := by omega
        subst hLH2
        have hcond : loopCond ⟨some L, lh, bs, es, hb, ev, rc⟩ L = false := by
          simp [loopCond]
        rw [walkLoop_exit node _ L _ _ hcond]
        simp

/-- C1: against a consistent node with head height `H`, the walk loop of
`_step` starting from `last_processed_height = L < H` emits exactly `H − L`
block-observed events, at heights `L+1, …, H`, each once, in increasing
order, adds each block's extrinsic count to the extrinsics counter, and ends
with `last_processed_height = H`; starting from `last_processed_height =
None` it emits exactly one event, for the head block itself, and
`last_processed_height` becomes `H`. -/
theorem c1_walk_loop_correct {node : Node} {H : Nat} {hashOf : Nat → String}
    {blockOf : Nat → Block} (hc : ConsistentTo node H hashOf blockOf) :
    (∀ L s fuel, s.lastNum = some L → L < H → H - L ≤ fuel →
        walkLoop node (some (blockOf H)) H fuel s =
          .ok { s with
                  lastNum := some H,
                  lastHash := some (hashOf H),
                  blocksSeen := s.blocksSeen + (H - L),
                  extrinsicsSeen := s.extrinsicsSeen +
                    ((List.range' (L+1) (H-L)).map
                      fun n => (blockOf n).extrinsics).sum,
                  events := s.events ++ List.range' (L+1) (H-L),
                  rpcCalls := s.rpcCalls + 2 * (H - L) })
    ∧ (∀ s fuel, s.lastNum = none → 1 ≤ fuel →
        walkLoop node (some (blockOf H)) H fuel s =
          .ok { s with
                  lastNum := some H,
                  blocksSeen := s.blocksSeen + 1,
                  extrinsicsSeen := s.extrinsicsSeen + (blockOf H).extrinsics,
                  events := s.events ++ [H] }) := by
  constructor
  · intro L s fuel hL hLH hfuel
    have h := walkLoop_run hc fuel L s hL (by omega) hfuel
    rw [h, if_pos hLH]
  · intro s fuel hL hfuel
    obtain ⟨ln, lh, bs, es, hb, ev, rc⟩ := s
    simp only at hL
    subst hL
    obtain ⟨fuel, rfl⟩ : ∃ f, fuel = f + 1 := ⟨fuel - 1, by omega⟩
    have hcond : loopCond ⟨none, lh, bs, es, hb, ev, rc⟩ H = true := by
      simp [loopCond]
    have hiter : walkIter node (some (blockOf H))
        ⟨none, lh, bs, es, hb, ev, rc⟩
        = .ok ⟨some H, lh, bs + 1, es + (blockOf H).extrinsics, hb,
            ev ++ [H], rc⟩ := by
      simp only [walkIter, processBlock, get_block_num,
        hc.number_eq H (by omega)]
    have hexit : loopCond ⟨some H, lh, bs + 1, es + (blockOf H).extrinsics,
        hb, ev ++ [H], rc⟩ H = false := by
      simp [loopCond]
    simp only [walkLoop, hcond, if_true, hiter,
      walkLoop_exit node _ H fuel _ hexit]

/-- C1 (witness): walking the concrete witness chain from `L = 0` to head
height `H = 2` observes heights 1 and 2 in order, with 11 + 12 extrinsics. -/
theorem c1_walk_loop_correct_witness :
    (⟨some 0, none, 0, 0, none, [], 0⟩ : StepState).lastNum = some 0
    ∧ 0 < 2
    ∧ walkLoop nodeW (some (blockOfW 2)) 2 5 ⟨some 0, none, 0, 0, none, [], 0⟩
        = .ok ⟨some 2, some "g2", 2, 23, none, [1, 2], 4⟩
    ∧ walkLoop nodeW (some (blockOfW 2)) 2 5 ⟨none, none, 0, 0, none, [], 0⟩
        = .ok ⟨some 2, none, 1, 12, none, [2], 0⟩ := by
  have hcW : ConsistentTo nodeW 2 hashOfW blockOfW := by
    refine ⟨rfl, ?_, ?_, ?_⟩
    · intro n _
      rfl
    · intro n _
      rfl
    · intro n hn
      match n, hn with
      | 0, _ => rfl
      | 1, _ => rfl
      | 2, _ => rfl
  refine ⟨rfl, by decide, ?_, ?_⟩
  · have h := (c1_walk_loop_correct hcW).1 0
      ⟨some 0, none, 0, 0, none, [], 0⟩ 5 rfl (by decide) (by decide)
    simpa using h
  · have h := (c1_walk_loop_correct hcW).2
      ⟨none, none, 0, 0, none, [], 0⟩ 5 rfl (by decide)
    simpa using h

/-- C5: when a last-processed hash exists and the node's
`chain_getBlockHash` answer equals it, `_step` returns right after the
head-hash check: exactly one RPC call is made and every other component of
the state — counters, gauge, events, catch-up position — is unchanged. -/
theorem c5_fast_path (node : Node) (fuel : Nat) (s : StepState) (h : String)
    (hlast : s.lastHash = some h)
    (hhead : node.headHash = .success (some h)) :
    _step node fuel s = .ok { s with rpcCalls := s.rpcCalls + 1 } := by
  simp [_step, hlast, hhead, bumpRpc]

/-- C5 (witness): with `_last_processed_block_hash = "g2"` and the node
reporting head hash `"g2"`, `_step` is a one-call no-op. -/
theorem c5_fast_path_witness :
    (⟨some 2, some "g2", 7, 9, some 2, [], 3⟩ : StepState).lastHash
        = some "g2"
    ∧ nodeW.headHash = .success (some "g2")
    ∧ _step nodeW 5 ⟨some 2, some "g2", 7, 9, some 2, [], 3⟩
        = .ok ⟨some 2, some "g2", 7, 9, some 2, [], 4⟩ :=
  ⟨rfl, rfl,
    c5_fast_path nodeW 5 ⟨some 2, some "g2", 7, 9, some 2, [], 3⟩ "g2"
      rfl rfl⟩

/-- C10: the first-block branch of `_step` (taken when
`_last_processed_block_num` is `None`) never assigns
`_last_processed_block_hash`, which therefore stays `None`; consequently a
later `_step` with an unchanged head skips the fast path (the short-circuit
`and` even saves the head-hash RPC call) and still re-fetches the full head
block — one RPC call, no block events — leaving the hash `None` again. -/
theorem c10_first_block_leaves_hash_none (node : Node) (s : StepState)
    (fuel : Nat) (b : Block) :
    (node.headBlock = .success (some b) → s.lastNum = none →
      s.lastHash = none → 1 ≤ fuel →
      _step node fuel s =
        .ok { s with
                lastNum := some b.number,
                blocksSeen := s.blocksSeen + 1,
                extrinsicsSeen := s.extrinsicsSeen + b.extrinsics,
                events := s.events ++ [b.number],
                highestBlock := some b.number,
                rpcCalls := s.rpcCalls + 1 })
    ∧ (node.headBlock = .success (some b) → s.lastHash = none →
        s.lastNum = some b.number →
        _step node fuel s =
          .ok { s with
                  highestBlock := some b.number,
                  rpcCalls := s.rpcCalls + 1 }) := by
  constructor
  · intro hhead hnum hhash hfuel
    obtain ⟨ln, lh, bs, es, hb, ev, rc⟩ := s
    simp only at hnum hhash
    subst hnum
    subst hhash
    obtain ⟨fuel, rfl⟩ : ∃ f, fuel = f + 1 := ⟨fuel - 1, by omega⟩
    have hcond : loopCond ⟨none, none, bs, es, some b.number, ev, rc + 1⟩
        b.number = true := by
      simp [loopCond]
    have hexit : loopCond ⟨some b.number, none, bs + 1, es + b.extrinsics,
        some b.number, ev ++ [b.number], rc + 1⟩ b.number = false := by
      simp [loopCond]
    simp only [_step, _step_walk, hhead, _get_block_num, get_block_num,
      bumpRpc, walkLoop, hcond, if_true, walkIter, processBlock,
      walkLoop_exit node _ b.number fuel _ hexit]
  · intro hhead hhash hnum
    obtain ⟨ln, lh, bs, es, hb, ev, rc⟩ := s
    simp only at hnum hhash
    subst hnum
    subst hhash
    have hexit : loopCond ⟨some b.number, none, bs, es, some b.number, ev,
        rc + 1⟩ b.number = false := by
      simp [loopCond]
    simp only [_step, _step_walk, hhead, _get_block_num, get_block_num,
      bumpRpc, walkLoop_exit node _ b.number fuel _ hexit]

/-- C10 (witness): processing the first block via the head branch leaves the
hash `None`; the next `_step` against the unchanged head re-fetches the head
block with one RPC call and emits nothing. -/
theorem c10_first_block_leaves_hash_none_witness :
    nodeW.headBlock = .success (some (blockOfW 2))
    ∧ _step nodeW 5 ⟨none, none, 0, 0, none, [], 0⟩
        = .ok ⟨some 2, none, 1, 12, some 2, [2], 1⟩
    ∧ _step nodeW 5 ⟨some 2, none, 1, 12, some 2, [2], 1⟩
        = .ok ⟨some 2, none, 1, 12, some 2, [2], 2⟩ :=
  ⟨rfl,
    (c10_first_block_leaves_hash_none nodeW ⟨none, none, 0, 0, none, [], 0⟩
        5 (blockOfW 2)).1 rfl rfl rfl (by decide),
    (c10_first_block_leaves_hash_none nodeW
        ⟨some 2, none, 1, 12, some 2, [2], 1⟩ 5 (blockOfW 2)).2
      rfl rfl rfl⟩

/-- C6: consistency violations raise `RuntimeError`/`TypeError`, which no
boundary catches — both `Exporter.serve_forever` and
`ExporterPeriodicTask._perform` swallow only the RPC failure signal — so the
process terminates. Witnessed by: node A (absent hash for a height the head
reported existing) making `_step` raise `RuntimeError`; node B (absent block
for a resolved hash) making `_step` raise `TypeError`; and a finality cycle
whose finalized hash resolves to an absent block raising `RuntimeError`
through the task body. -/
theorem c6_consistency_violation_terminates :
    (∀ m s, serve_forever_boundary (.err (.runtimeError m) s)
        = .err (.runtimeError m) s)
    ∧ (∀ s, serve_forever_boundary (.err .typeError s) = .err .typeError s)
    ∧ (∀ m c st, exporter_periodic_task_boundary (.err (.runtimeError m) c st)
        = .err (.runtimeError m) c st)
    ∧ _step nodeA6 5 s06
        = .err (.runtimeError "hash of the next block must not be none")
            ⟨some 0, none, 0, 0, some 2, [], 2⟩
    ∧ _step nodeB6 5 s06
        = .err .typeError ⟨some 0, some "h1", 1, 0, some 2, [], 3⟩
    ∧ finality_perform_internal ⟨.success (some "fh"), .success (some "lh")⟩
        (fun _ => .success none) ⟨2, []⟩ ⟨none, none, []⟩
        = .err (.runtimeError "finalized block must not be none")
            ⟨2, []⟩ ⟨none, none, []⟩ := by
  refine ⟨fun m s => rfl, fun s => rfl, fun m c st => rfl, ?_, ?_, rfl⟩
  · decide
  · decide

/-- C9 (counterexample): an execution of the finality task body in which
`chain_getFinalizedHead` returns an absent identifier does *not* always
return without error: the body issues the head-hash RPC call before testing
for absence, so when that call fails the body raises the RPC failure
signal. -/
theorem c9_finality_absent_counterexample :
    (FinalityNode.mk (.success none) .failure).finalizedHead = .success none
    ∧ finality_perform_internal ⟨.success none, .failure⟩
        (fun _ => .success none) ⟨2, []⟩ ⟨none, none, []⟩
      = .err .rpcFailure ⟨2, []⟩ ⟨none, none, []⟩ :=
  ⟨rfl, rfl⟩

/-- C9 (amended): provided the two leading RPC calls succeed, an absent
finalized-head identifier makes the body return without error and without
touching any gauge or histogram; when the finalized head is present and both
hashes resolve to blocks through the cache, the body publishes the finalized
height as a gauge and the head-minus-finalized delay as both a gauge and a
histogram observation, and that delay is non-negative whenever the head
height is at least the finalized height. -/
theorem c9_finality_tracker (node : FinalityNode)
    (fetch : String → Rpc (Option Block)) (c : BlockCache)
    (st : FinalityState) :
    (∀ lh, node.finalizedHead = .success none →
        node.headHash = .success lh →
        finality_perform_internal node fetch c st = .ok c st)
    ∧ (∀ fh lh c1 c2 fb lb n1 n2,
        node.finalizedHead = .success (some fh) →
        node.headHash = .success (some lh) →
        BlockCache.get fetch c fh = (c1, .ok (some fb), n1) →
        BlockCache.get fetch c1 lh = (c2, .ok (some lb), n2) →
        finality_perform_internal node fetch c st =
          .ok c2 { st with
                     final_block := some (get_block_num fb : Int),
                     finality_delay_blocks :=
                       some ((get_block_num lb : Int)
                         - (get_block_num fb : Int)),
                     delay_observations := st.delay_observations
                       ++ [(get_block_num lb : Int)
                         - (get_block_num fb : Int)] }
          ∧ (get_block_num fb ≤ get_block_num lb →
              0 ≤ (get_block_num lb : Int) - (get_block_num fb : Int))) := by
  constructor
  · intro lh h1 h2
    simp only [finality_perform_internal, h1, h2]
  · intro fh lh c1 c2 fb lb n1 n2 h1 h2 hget1 hget2
    constructor
    · simp only [finality_perform_internal, h1, h2, hget1, hget2]
    · intro hle
      omega

/-- C9 (witness): finalized block `b1` (height 10) and head block `b3`
(height 12) publish a finalized-height gauge of 10 and a delay of 2, also
observed by the histogram; a cycle with an absent finalized head and a
successful head-hash call is a no-op. -/
theorem c9_finality_tracker_witness :
    finality_perform_internal ⟨.success (some "b1"), .success (some "b3")⟩
        fetchW ⟨2, []⟩ ⟨none, none, []⟩
      = .ok ⟨2, [("b1", ⟨10, 0⟩), ("b3", ⟨12, 0⟩)]⟩ ⟨some 10, some 2, [2]⟩
    ∧ finality_perform_internal ⟨.success none, .success (some "b3")⟩
        fetchW ⟨2, []⟩ ⟨none, none, []⟩
      = .ok ⟨2, []⟩ ⟨none, none, []⟩ := by
  constructor
  · have h := ((c9_finality_tracker ⟨.success (some "b1"), .success (some "b3")⟩
        fetchW ⟨2, []⟩ ⟨none, none, []⟩).2 "b1" "b3"
        ⟨2, [("b1", ⟨10, 0⟩)]⟩ ⟨2, [("b1", ⟨10, 0⟩), ("b3", ⟨12, 0⟩)]⟩
        ⟨10, 0⟩ ⟨12, 0⟩ 1 1 rfl rfl rfl rfl).1
    simpa using h
  · exact (c9_finality_tracker ⟨.success none, .success (some "b3")⟩
      fetchW ⟨2, []⟩ ⟨none, none, []⟩).1 (some "b3") rfl rfl

end PolkadotExporter
